import Mathlib

/-!
Verification development for the `ray_tracer_challenge_rust` ray tracer.

Shallow embedding conventions:
* Rust `f64` is modelled by `ℚ`. Transcendental `f64` operations with no
  exact rational counterpart (`sqrt`, `powf`, `atan2`, `acos`) are modelled
  by an explicit record of functions `FloatFns` passed to every definition
  that needs one; theorems either hold for every such record or carry the
  defining property of the operation as a hypothesis.
* Rust panics (`assert!` in `Matrix::inverse`) are modelled by `Option`.
* Rust `Vec<T>` is `List T`; `sort_unstable_by` over the (total, on `ℚ`)
  comparator is `List.insertionSort`; references (`&Shape`) are plain values.
-/

namespace RT

/-- Abstract model of the `f64` operations that have no exact counterpart
on `ℚ`: `f64::sqrt`, `f64::powf`, `f64::atan2`, `f64::acos`.  Every
definition in the embedding is parametric in such a record. -/
structure FloatFns where
  sqrt : ℚ → ℚ
  powf : ℚ → ℚ → ℚ
  atan2 : ℚ → ℚ → ℚ
  acos : ℚ → ℚ
  hypot : ℚ → ℚ → ℚ
  pi : ℚ

/-- A `FloatFns` record whose operations all return `0`; used only to
instantiate theorems at concrete inputs where the operations are irrelevant. -/
def trivFns : FloatFns :=
  { sqrt := fun _ => 0, powf := fun _ _ => 0, atan2 := fun _ _ => 0, acos := fun _ => 0,
    hypot := fun _ _ => 0, pi := 0 }

/-- Model of `src/utils.rs`: `pub const EPSILON: f64 = 1e-5;` -/
def EPSILON : ℚ := 1 / 100000

/-- Modelled from the spec: the `Vector` type of the missing `vector.rs`
("3 real components; Vector supports dot, cross, magnitude, normalize,
reflect-about-normal"). -/
structure Vector where
  x : ℚ
  y : ℚ
  z : ℚ
deriving DecidableEq

/-- Model of `src/point.rs`: `Point` with three `f64` components. -/
structure Point where
  x : ℚ
  y : ℚ
  z : ℚ
deriving DecidableEq

/-- Model of `Point::ORIGIN` (referenced throughout the source). -/
def Point.ORIGIN : Point := ⟨0, 0, 0⟩

def Vector.add (a b : Vector) : Vector := ⟨a.x + b.x, a.y + b.y, a.z + b.z⟩

def Vector.sub (a b : Vector) : Vector := ⟨a.x - b.x, a.y - b.y, a.z - b.z⟩

def Vector.neg (a : Vector) : Vector := ⟨-a.x, -a.y, -a.z⟩

def Vector.smul (a : Vector) (k : ℚ) : Vector := ⟨a.x * k, a.y * k, a.z * k⟩

instance instAddVector : Add Vector := ⟨Vector.add⟩

instance instSubVector : Sub Vector := ⟨Vector.sub⟩

instance instNegVector : Neg Vector := ⟨Vector.neg⟩

instance instSMulVector : HMul Vector ℚ Vector := ⟨Vector.smul⟩

/-- Modelled from the spec: `Vector::dot`. -/
def Vector.dot (a b : Vector) : ℚ := a.x * b.x + a.y * b.y + a.z * b.z

/-- Modelled from the spec: `Vector::magnitude` is `sqrt(v · v)`; the
square root is the abstract `F.sqrt`. -/
def Vector.magnitude (F : FloatFns) (v : Vector) : ℚ := F.sqrt (v.dot v)

/-- Modelled from the spec: `Vector::normalize` divides each component by
the magnitude. -/
def Vector.normalize (F : FloatFns) (v : Vector) : Vector :=
  ⟨v.x / v.magnitude F, v.y / v.magnitude F, v.z / v.magnitude F⟩

/-- Modelled from the spec: `Vector::reflect(normal)`, the standard
`v - normal * 2 * (v · normal)`. -/
def Vector.reflect (v normal : Vector) : Vector :=
  v - normal * (2 * v.dot normal)

/-- Model of `src/point.rs`: `Point + Vector`. -/
def Point.addVec (p : Point) (v : Vector) : Point := ⟨p.x + v.x, p.y + v.y, p.z + v.z⟩

/-- Model of `src/point.rs`: `Point - Point -> Vector`. -/
def Point.subPoint (p q : Point) : Vector := ⟨p.x - q.x, p.y - q.y, p.z - q.z⟩

/-- Model of `src/point.rs`: `Point - Vector -> Point`. -/
def Point.subVec (p : Point) (v : Vector) : Point := ⟨p.x - v.x, p.y - v.y, p.z - v.z⟩

instance instAddPointVector : HAdd Point Vector Point := ⟨Point.addVec⟩

instance instSubPointPoint : HSub Point Point Vector := ⟨Point.subPoint⟩

instance instSubPointVector : HSub Point Vector Point := ⟨Point.subVec⟩

/-- Model of `src/color.rs`: three-channel color. -/
structure Color where
  red : ℚ
  green : ℚ
  blue : ℚ
deriving DecidableEq

def Color.BLACK : Color := ⟨0, 0, 0⟩

def Color.WHITE : Color := ⟨1, 1, 1⟩

/-- Model of `impl ops::Add for Color`. -/
def Color.add (a b : Color) : Color := ⟨a.red + b.red, a.green + b.green, a.blue + b.blue⟩

/-- Model of `impl ops::Sub for Color`. -/
def Color.sub (a b : Color) : Color := ⟨a.red - b.red, a.green - b.green, a.blue - b.blue⟩

/-- Model of `impl ops::Mul<f64> for Color`. -/
def Color.scale (a : Color) (k : ℚ) : Color := ⟨a.red * k, a.green * k, a.blue * k⟩

/-- Model of `impl ops::Mul for Color` (channel-wise product). -/
def Color.mul (a b : Color) : Color := ⟨a.red * b.red, a.green * b.green, a.blue * b.blue⟩

instance instAddColor : Add Color := ⟨Color.add⟩

instance instSubColor : Sub Color := ⟨Color.sub⟩

instance instMulColor : Mul Color := ⟨Color.mul⟩

instance instScaleColor : HMul Color ℚ Color := ⟨Color.scale⟩

theorem Color.add_black (c : Color) : c + Color.BLACK = c := by
  cases c
  show Color.add _ _ = _
  simp [Color.add, Color.BLACK]

/-! ### Matrices (`src/matrix.rs`)

`Matrix<const N: usize>` is modelled at the three sizes the source
instantiates (2, 3, 4) as functions `ℕ → ℕ → ℚ` read only at indices
`0 ≤ r, c < N`; `m r c` is the source's `m[r][c]`.  The source's
`submatrix` loop, which skips one row and one column while re-packing the
rest in order, becomes the index shift
`if i < row then i else i + 1`. -/

abbrev Matrix2 := Nat → Nat → ℚ

abbrev Matrix3 := Nat → Nat → ℚ

abbrev Matrix4 := Nat → Nat → ℚ

/-- Model of `Matrix::<N>::identity()`. -/
def Matrix4.identity : Matrix4 := fun i j => if i = j then 1 else 0

/-- Model of `Matrix::<N>::transpose()`. -/
def Matrix4.transpose (m : Matrix4) : Matrix4 := fun r c => m c r

/-- Model of `impl ops::Mul for Matrix<N>` at N = 4 (the running sum over `i`). -/
def Matrix4.mul (a b : Matrix4) : Matrix4 := fun r c =>
  a r 0 * b 0 c + a r 1 * b 1 c + a r 2 * b 2 c + a r 3 * b 3 c

/-- Model of `Matrix<2>::determinant`. -/
def Matrix2.determinant (m : Matrix2) : ℚ := m 0 0 * m 1 1 - m 0 1 * m 1 0

/-- Model of `Matrix<3>::submatrix(row, col)`: drop one row and one column. -/
def Matrix3.submatrix (m : Matrix3) (row col : Nat) : Matrix2 := fun i j =>
  m (if i < row then i else i + 1) (if j < col then j else j + 1)

/-- Model of `Matrix<3>::minor`. -/
def Matrix3.minor (m : Matrix3) (row col : Nat) : ℚ :=
  Matrix2.determinant (Matrix3.submatrix m row col)

/-- Model of `Matrix<3>::cofactor`. -/
def Matrix3.cofactor (m : Matrix3) (row col : Nat) : ℚ :=
  (if (row + col) % 2 = 0 then 1 else -1) * Matrix3.minor m row col

/-- Model of `Matrix<3>::determinant` (cofactor expansion along row 0). -/
def Matrix3.determinant (m : Matrix3) : ℚ :=
  m 0 0 * Matrix3.cofactor m 0 0 + m 0 1 * Matrix3.cofactor m 0 1 +
    m 0 2 * Matrix3.cofactor m 0 2

/-- Model of `Matrix<4>::submatrix(row, col)`. -/
def Matrix4.submatrix (m : Matrix4) (row col : Nat) : Matrix3 := fun i j =>
  m (if i < row then i else i + 1) (if j < col then j else j + 1)

/-- Model of `Matrix<4>::minor`. -/
def Matrix4.minor (m : Matrix4) (row col : Nat) : ℚ :=
  Matrix3.determinant (Matrix4.submatrix m row col)

/-- Model of `Matrix<4>::cofactor`. -/
def Matrix4.cofactor (m : Matrix4) (row col : Nat) : ℚ :=
  (if (row + col) % 2 = 0 then 1 else -1) * Matrix4.minor m row col

/-- Model of `Matrix<4>::determinant` (cofactor expansion along row 0). -/
def Matrix4.determinant (m : Matrix4) : ℚ :=
  m 0 0 * Matrix4.cofactor m 0 0 + m 0 1 * Matrix4.cofactor m 0 1 +
    m 0 2 * Matrix4.cofactor m 0 2 + m 0 3 * Matrix4.cofactor m 0 3

/-- Model of `Matrix<4>::inverse`.  The source `assert!(!(det == 0.0), "Matrix is not
invertible")` panic is modelled by `none`; on the non-panicking path the
result writes `cofactor(row, col) / det` into entry `[col][row]`. -/
def Matrix4.inverse (m : Matrix4) : Option Matrix4 :=
  if Matrix4.determinant m = 0 then none
  else some (fun col row => Matrix4.cofactor m row col / Matrix4.determinant m)

/-- The value the non-panicking branch of `Matrix<4>::inverse` produces;
`Shape::with_transform` and friends store this cached inverse. -/
def Matrix4.inv (m : Matrix4) : Matrix4 :=
  (Matrix4.inverse m).getD Matrix4.identity

/-- Model of `impl ops::Mul<Point> for Matrix<4>` (implicit homogeneous coordinate 1). -/
def Matrix4.mulPoint (m : Matrix4) (p : Point) : Point :=
  ⟨m 0 0 * p.x + m 0 1 * p.y + m 0 2 * p.z + m 0 3,
   m 1 0 * p.x + m 1 1 * p.y + m 1 2 * p.z + m 1 3,
   m 2 0 * p.x + m 2 1 * p.y + m 2 2 * p.z + m 2 3⟩

/-- Model of `impl ops::Mul<Vector> for Matrix<4>` (implicit homogeneous coordinate 0). -/
def Matrix4.mulVec (m : Matrix4) (v : Vector) : Vector :=
  ⟨m 0 0 * v.x + m 0 1 * v.y + m 0 2 * v.z,
   m 1 0 * v.x + m 1 1 * v.y + m 1 2 * v.z,
   m 2 0 * v.x + m 2 1 * v.y + m 2 2 * v.z⟩

/-- Modelled from the spec: `Transformation::scaling(x, y, z)` of the
transform-constructor code absent from `src/` (spec section 4.1). -/
def Matrix4.scaling (x y z : ℚ) : Matrix4 := fun i j =>
  if i = j then (if i = 0 then x else if i = 1 then y else if i = 2 then z else 1)
  else 0

/-- Modelled from the spec: `Transformation::translation(x, y, z)`
(spec section 4.1). -/
def Matrix4.translation (x y z : ℚ) : Matrix4 := fun i j =>
  if i = j then 1
  else if j = 3 then (if i = 0 then x else if i = 1 then y else if i = 2 then z else 0)
  else 0

/-! ### Rays (`src/ray.rs`) -/

/-- Model of `Ray`: origin + direction. -/
structure Ray where
  origin : Point
  direction : Vector

/-- Model of `Ray::position(t) = origin + direction * t`. -/
def Ray.position (r : Ray) (t : ℚ) : Point := r.origin + r.direction * t

/-- Model of `Ray::transform(m)`. -/
def Ray.transform (r : Ray) (m : Matrix4) : Ray :=
  ⟨m.mulPoint r.origin, m.mulVec r.direction⟩

/-! ### Primitive geometry (`src/shapes/sphere.rs`, `src/shapes/plane.rs`) -/

/-- Modelled from the spec: `LocalHits`, the local-intersection result type
whose definition lives in the newer `intersection.rs` missing from `src/`
(`src/shapes/plane.rs` imports and returns it; the spec: "given a ray
already expressed in the primitive's own object space, returns zero or more
parametric hit distances"). -/
inductive LocalHits where
  | none : LocalHits
  | one : ℚ → LocalHits
deriving DecidableEq

/-- Model of `LocalHits::iter().collect()` as used by `Shape::intersect`. -/
def LocalHits.toList : LocalHits → List ℚ
  | LocalHits.none => []
  | LocalHits.one t => [t]

/-- Model of `Sphere::local_intersect` (`src/shapes/sphere.rs`): numerically stable
quadratic solve for `|O + tD|² = 1`.  Returns the pair `(lo, hi)` sorted
ascending, or `none` when the discriminant is negative. -/
def Sphere.local_intersect (F : FloatFns) (ray_obj : Ray) : Option (ℚ × ℚ) :=
  let sphere_to_ray := ray_obj.origin - Point.ORIGIN
  let a := ray_obj.direction.dot ray_obj.direction
  let b := 2 * ray_obj.direction.dot sphere_to_ray
  let c := sphere_to_ray.dot sphere_to_ray - 1
  let discriminant := b * b - 4 * a * c
  if discriminant < 0 then none
  else
    let sqrt_disc := F.sqrt discriminant
    let q := if b < 0 then (-b + sqrt_disc) / 2 else (-b - sqrt_disc) / 2
    let t1 := q / a
    let t2 := c / q
    if t1 ≤ t2 then some (t1, t2) else some (t2, t1)

/-- Model of `Option<(f64, f64)>::iter().collect()` as used by `Shape::intersect`:
the two parametric distances in order. -/
def sphereHits : Option (ℚ × ℚ) → List ℚ
  | Option.none => []
  | Option.some (lo, hi) => [lo, hi]

/-- Model of `Plane::local_intersect` (`src/shapes/plane.rs`): rays parallel to the
x-z plane (|direction.y| < EPSILON) miss; otherwise the single hit is
`t = -origin.y / direction.y`. -/
def Plane.local_intersect (ray : Ray) : LocalHits :=
  if |ray.direction.y| < EPSILON then LocalHits.none
  else LocalHits.one (-ray.origin.y / ray.direction.y)

/-- Model of `Plane::local_normal_at`: constant `(0, 1, 0)`. -/
def Plane.local_normal_at (_point : Point) : Vector := ⟨0, 1, 0⟩

/-- Model of `Sphere::local_normal_at`: `(point - origin).normalize()`. -/
def Sphere.local_normal_at (F : FloatFns) (p_obj : Point) : Vector :=
  Vector.normalize F (p_obj - Point.ORIGIN)

/-- Model of `Geometry` (`src/shapes/shape.rs`): closed choice of primitive.  The Rust
variants carry the unit structs `Sphere` / `Plane`. -/
inductive Geometry where
  | sphere : Geometry
  | plane : Geometry
deriving DecidableEq

/-- The source stores `uv_map: Option<fn(Point) -> (f64, f64)>`; the only
function pointer the program ever stores is `spherical_map`, so the field is
defunctionalized into this closed enumeration (interpreted by
`UVMapKind.apply`). -/
inductive UVMapKind where
  | spherical : UVMapKind
deriving DecidableEq

/-- Model of `spherical_map` (`src/shapes/shape.rs`): azimuth via `atan2`, polar angle
via `acos`, normalized and flipped. -/
def spherical_map (F : FloatFns) (point : Point) : ℚ × ℚ :=
  let theta := F.atan2 point.x point.z
  let vec : Vector := ⟨point.x, point.y, point.z⟩
  let radius := vec.magnitude F
  let phi := F.acos (point.y / radius)
  let raw_u := theta / (2 * F.pi)
  let u := 1 - (raw_u + 1 / 2)
  let v := 1 - phi / F.pi
  (u, v)

def UVMapKind.apply (F : FloatFns) : UVMapKind → Point → ℚ × ℚ
  | UVMapKind.spherical, p => spherical_map F p

/-! ### Patterns (`src/pattern.rs`) -/

/-- Model of `PatternType`. -/
inductive PatternType where
  | striped : PatternType
  | gradient : PatternType
  | ring : PatternType
  | checker : PatternType
  | checkerUV : ℚ → ℚ → PatternType
deriving DecidableEq

mutual

/-- Model of `Pattern`: own transform (+ cached inverse), a variant tag, and two
color sources. -/
inductive Pattern where
  | mk : Matrix4 → Matrix4 → PatternType → Source → Source → Pattern

/-- Model of `Source`: a solid color or a nested (boxed) pattern. -/
inductive Source where
  | solid : Color → Source
  | pattern : Pattern → Source

end

def Pattern.transform : Pattern → Matrix4
  | Pattern.mk t _ _ _ _ => t

def Pattern.inverse_transform : Pattern → Matrix4
  | Pattern.mk _ it _ _ _ => it

def Pattern.pattern_type : Pattern → PatternType
  | Pattern.mk _ _ pt _ _ => pt

def Pattern.a : Pattern → Source
  | Pattern.mk _ _ _ a _ => a

def Pattern.b : Pattern → Source
  | Pattern.mk _ _ _ _ b => b

/-- Model of `const EPS_PLANE: f64 = 1e-6`. -/
def EPS_PLANE : ℚ := 1 / 1000000

/-- Model of `const EPS_FLOOR: f64 = 1e-9`. -/
def EPS_FLOOR : ℚ := 1 / 1000000000

/-- Model of `floor_eps`: floor with a bias toward the current cell. -/
def floor_eps (x : ℚ) : Int :=
  (x + (if 0 ≤ x then EPS_FLOOR else -EPS_FLOOR)).floor

/-! ### Material (`src/material.rs`) -/

/-- Model of `Material`.  The fields `reflective`, `transparency` and
`refractive_index` are modelled from the spec (section 3: "reflective ∈[0,1],
transparency ∈[0,1], refractive_index (>0, 1.0 = vacuum/air)"); the version of
`material.rs` under `src/` predates them while `world.rs` uses them. -/
structure Material where
  color : Color
  pattern : Option Pattern
  ambient : ℚ
  diffuse : ℚ
  specular : ℚ
  shininess : ℚ
  reflective : ℚ
  transparency : ℚ
  refractive_index : ℚ

/-- Model of `Material::default()`: white, no pattern, ambient 0.1, diffuse 0.9,
specular 0.9, shininess 200; the spec-modelled fields default to
non-reflective, opaque, vacuum index 1.0. -/
def Material.default : Material :=
  { color := Color.WHITE, pattern := Option.none, ambient := 1 / 10, diffuse := 9 / 10,
    specular := 9 / 10, shininess := 200, reflective := 0, transparency := 0,
    refractive_index := 1 }

/-- Model of `PointLight` (`src/point_light.rs`). -/
structure PointLight where
  position : Point
  intensity : Color

/-! ### Shape (`src/shapes/shape.rs`) -/

/-- Model of `Shape`: geometry variant + transform (+ cached inverse) + material +
optional UV mapping. -/
structure Shape where
  transform : Matrix4
  inverse_transform : Matrix4
  material : Material
  geom : Geometry
  uv_map : Option UVMapKind

/-- Model of `Shape::sphere()`. -/
def Shape.sphere : Shape :=
  { transform := Matrix4.identity, inverse_transform := Matrix4.identity,
    material := Material.default, geom := Geometry.sphere,
    uv_map := Option.some UVMapKind.spherical }

/-- Model of `Shape::plane()`. -/
def Shape.plane : Shape :=
  { transform := Matrix4.identity, inverse_transform := Matrix4.identity,
    material := Material.default, geom := Geometry.plane, uv_map := Option.none }

/-- Model of `Shape::with_transform`: stores the transform and caches its inverse
(the panicking inverse is modelled by `Matrix4.inv`). -/
def Shape.with_transform (s : Shape) (t : Matrix4) : Shape :=
  { s with transform := t, inverse_transform := t.inv }

/-- Model of `Shape::with_material`. -/
def Shape.with_material (s : Shape) (m : Material) : Shape :=
  { s with material := m }

/-! Pattern sampling (`src/pattern.rs`): `pattern_at_object` composes the
shape's and the pattern's cached inverse transforms, dispatches on the
variant, and each variant samples its sources, recursively for nested
patterns. -/

mutual

/-- Model of `Pattern::pattern_at_object`. -/
def Pattern.pattern_at_object (F : FloatFns) : Pattern → Shape → Point → Color
  | self, object, point =>
    let object_point := Matrix4.mulPoint object.inverse_transform point
    let pattern_point := Matrix4.mulPoint self.inverse_transform object_point
    match self.pattern_type with
    | PatternType.striped => Pattern.stripe_at F self pattern_point object
    | PatternType.gradient => Pattern.gradient_at F self pattern_point object
    | PatternType.ring => Pattern.ring_at F self pattern_point object
    | PatternType.checker => Pattern.checker_at F self pattern_point object
    | PatternType.checkerUV width height =>
        Pattern.checker_uv_at F self pattern_point object width height

/-- Model of `Pattern::sample_source`: a solid color is returned as is; a nested
pattern is sampled recursively against the same object. -/
def Pattern.sample_source (F : FloatFns) : Source → Point → Shape → Color
  | Source.solid c, _, _ => c
  | Source.pattern p, local_pt, object => Pattern.pattern_at_object F p object local_pt

/-- Model of `Pattern::stripe_at`: parity of `floor(x)`. -/
def Pattern.stripe_at (F : FloatFns) : Pattern → Point → Shape → Color
  | Pattern.mk _ _ _ a b, p, obj =>
    if (Rat.floor p.x) % 2 = 0 then Pattern.sample_source F a p obj
    else Pattern.sample_source F b p obj

/-- Model of `Pattern::gradient_at`: linear interpolation over the fractional part of x. -/
def Pattern.gradient_at (F : FloatFns) : Pattern → Point → Shape → Color
  | Pattern.mk _ _ _ a b, p, obj =>
    let ca := Pattern.sample_source F a p obj
    let cb := Pattern.sample_source F b p obj
    let t := p.x - ((Rat.floor p.x : Int) : ℚ)
    ca + (cb - ca) * t

/-- Model of `Pattern::ring_at`: parity of `floor(hypot(x, z))`. -/
def Pattern.ring_at (F : FloatFns) : Pattern → Point → Shape → Color
  | Pattern.mk _ _ _ a b, p, obj =>
    let r := F.hypot p.x p.z
    if (Rat.floor r) % 2 = 0 then Pattern.sample_source F a p obj
    else Pattern.sample_source F b p obj

/-- Model of `Pattern::checker_at`: epsilon-biased floors; near the plane `y ≈ 0` the
y term is dropped from the parity sum. -/
def Pattern.checker_at (F : FloatFns) : Pattern → Point → Shape → Color
  | Pattern.mk _ _ _ a b, p, obj =>
    let ix := floor_eps p.x
    let iz := floor_eps p.z
    let s := if |p.y| < EPS_PLANE then ix + iz else ix + floor_eps p.y + iz
    if s % 2 = 0 then Pattern.sample_source F a p obj
    else Pattern.sample_source F b p obj

/-- Model of `Pattern::checker_uv_at`: with a UV map, checker the scaled (u, v)
floors; without one, fall back to sampling source `a`. -/
def Pattern.checker_uv_at (F : FloatFns) :
    Pattern → Point → Shape → ℚ → ℚ → Color
  | Pattern.mk _ _ _ a b, p, obj, width, height =>
    match obj.uv_map with
    | Option.some uv_fn =>
      let uv := uv_fn.apply F p
      let u := min (max uv.1 0) (1 - EPS_FLOOR) * width
      let v := min (max uv.2 0) (1 - EPS_FLOOR) * height
      let ix := floor_eps u
      let iy := floor_eps v
      if (ix + iy) % 2 = 0 then Pattern.sample_source F a p obj
      else Pattern.sample_source F b p obj
    | Option.none => Pattern.sample_source F a p obj

end

/-- Model of `Material::shade` (`src/material.rs`): Phong model.  `diffuse` and
`specular` start at `BLACK` and are only assigned when
`light_dot_normal >= 0.0 && !in_shadow`. -/
def Material.shade (F : FloatFns) (m : Material) (object : Shape) (position : Point)
    (light : PointLight) (eye normal : Vector) (in_shadow : Bool) : Color :=
  let effective_color : Color :=
    match m.pattern with
    | Option.some pat => Pattern.pattern_at_object F pat object position
    | Option.none => m.color * light.intensity
  let light_vector := Vector.normalize F (light.position - position)
  let ambient := effective_color * m.ambient
  let light_dot_normal := light_vector.dot normal
  let ds : Color × Color :=
    if 0 ≤ light_dot_normal ∧ in_shadow = false then
      let diffuse := effective_color * m.diffuse * light_dot_normal
      let reflect_vector := -(light_vector.reflect normal)
      let reflect_dot_eye := reflect_vector.dot eye
      let specular :=
        if 0 < reflect_dot_eye then
          light.intensity * m.specular * F.powf reflect_dot_eye m.shininess
        else Color.BLACK
      (diffuse, specular)
    else (Color.BLACK, Color.BLACK)
  ambient + ds.1 + ds.2

/-! `PartialEq` for the structures that carry a matrix.  Rust's derived
`PartialEq` compares the `[[f64; N]; N]` array contents, i.e. exactly the
entries at indices `0..N`; on the function representation that is this
bounded comparison. -/

/-- Model of `PartialEq` for `Matrix<4>`: entrywise over indices 0..4. -/
def Matrix4.beq (a b : Matrix4) : Bool :=
  [0, 1, 2, 3].all fun r => [0, 1, 2, 3].all fun c => a r c == b r c

mutual

/-- Derived `PartialEq` for `Pattern`. -/
def Pattern.beq : Pattern → Pattern → Bool
  | Pattern.mk t it pt a b, Pattern.mk t2 it2 pt2 a2 b2 =>
    Matrix4.beq t t2 && Matrix4.beq it it2 && pt == pt2 &&
      Source.beq a a2 && Source.beq b b2

/-- Derived `PartialEq` for `Source`. -/
def Source.beq : Source → Source → Bool
  | Source.solid c, Source.solid c2 => c == c2
  | Source.pattern p, Source.pattern p2 => Pattern.beq p p2
  | _, _ => false

end

/-- Derived `PartialEq` for `Option<Pattern>`. -/
def optPatternBeq : Option Pattern → Option Pattern → Bool
  | Option.none, Option.none => true
  | Option.some p, Option.some q => Pattern.beq p q
  | _, _ => false

/-- Derived `PartialEq` for `Material`. -/
def Material.beq (a b : Material) : Bool :=
  a.color == b.color && optPatternBeq a.pattern b.pattern && a.ambient == b.ambient &&
    a.diffuse == b.diffuse && a.specular == b.specular && a.shininess == b.shininess &&
    a.reflective == b.reflective && a.transparency == b.transparency &&
    a.refractive_index == b.refractive_index

/-- Derived `PartialEq` for `Shape`. -/
def Shape.beq (a b : Shape) : Bool :=
  Matrix4.beq a.transform b.transform &&
    Matrix4.beq a.inverse_transform b.inverse_transform &&
    Material.beq a.material b.material && a.geom == b.geom && a.uv_map == b.uv_map

/-! ### Intersections (`src/intersection.rs`) -/

/-- Model of `Intersection`: parametric distance plus the shape hit (the Rust
`&'a Shape` borrow is modelled by the value, per spec design note §9). -/
structure Intersection where
  t : ℚ
  s : Shape

/-- The comparator of `Intersections::new` / `World::intersections`
(`a.t.partial_cmp(&b.t)`, total on the `ℚ` model). -/
def interLE (a b : Intersection) : Prop := a.t ≤ b.t

instance : DecidableRel interLE := fun a b => inferInstanceAs (Decidable (a.t ≤ b.t))

instance : IsTotal Intersection interLE := ⟨fun a b => le_total a.t b.t⟩

instance : IsTrans Intersection interLE := ⟨fun _ _ _ h h2 => le_trans h h2⟩

/-- Model of `Intersections`: the sorted list of hits. -/
structure Intersections where
  list : List Intersection

/-- Model of `Intersections::new`: sorts by `t` ascending (`sort_unstable_by` is
modelled by an insertion sort — a sorted permutation, which is all the
source relies on). -/
def Intersections.new (l : List Intersection) : Intersections :=
  ⟨List.insertionSort interLE l⟩

/-- Model of `Intersections::empty()`. -/
def Intersections.empty : Intersections := ⟨[]⟩

/-- Model of `Intersections::from_sorted`: wraps a list that is already sorted. -/
def Intersections.from_sorted (l : List Intersection) : Intersections := ⟨l⟩

/-- Model of `Intersections::hit()`: the first intersection with `t > 0.0`. -/
def Intersections.hit (xs : Intersections) : Option Intersection :=
  xs.list.find? (fun i => decide (0 < i.t))

/-! ### Shape world-space operations (`src/shapes/shape.rs`) -/

/-- Model of `Shape::intersect`: transform the world ray into object space by the
cached inverse transform, delegate to the geometry, and wrap each
parametric distance with the shape. -/
def Shape.intersect (F : FloatFns) (s : Shape) (ray_world : Ray) : Intersections :=
  let ray_obj := ray_world.transform s.inverse_transform
  let hits : List ℚ :=
    match s.geom with
    | Geometry.sphere => sphereHits (Sphere.local_intersect F ray_obj)
    | Geometry.plane => (Plane.local_intersect ray_obj).toList
  if hits.isEmpty then Intersections.empty
  else Intersections.from_sorted (hits.map (fun t => Intersection.mk t s))

/-- Model of `Shape::normal_at`: world point to object space, local normal, then back
through the transposed inverse, normalized. -/
def Shape.normal_at (F : FloatFns) (s : Shape) (p_world : Point) : Vector :=
  let p_obj := Matrix4.mulPoint s.inverse_transform p_world
  let n_obj :=
    match s.geom with
    | Geometry.sphere => Sphere.local_normal_at F p_obj
    | Geometry.plane => Plane.local_normal_at p_obj
  Vector.normalize F (Matrix4.mulVec s.inverse_transform.transpose n_obj)

/-! ### Computations (prepared hit)

`world.rs` uses the newer `Computations` (with `under_point`,
`reflect_vector`, `n1`, `n2` and `schlick`) whose `intersection.rs` version
is missing from `src/`; those parts are modelled from the spec (section 3,
"Computations", and section 4.5). -/

/-- Model of `Computations`: derived, read-only snapshot of one hit. -/
structure Computations where
  object : Shape
  point : Point
  eye_vector : Vector
  normal_vector : Vector
  inside : Bool
  over_point : Point
  under_point : Point
  reflect_vector : Vector
  n1 : ℚ
  n2 : ℚ


/-- Modelled from the spec: the refractive-index walk of the newer
`prepare_computations` (spec 4.5 step 2): scan the sorted intersection list
keeping a last-in-first-out list of shapes the ray is currently inside;
at the hit, `n1` is the index of the last container before the hit's own
entry/exit update and `n2` the one after it. -/
def refractiveScan (hitI : Intersection) : List Intersection → List Shape → ℚ × ℚ
  | [], _ => (1, 1)
  | i :: rest, containers =>
    let updated :=
      if containers.any (fun sh => Shape.beq sh i.s) then
        containers.eraseP (fun sh => Shape.beq sh i.s)
      else containers ++ [i.s]
    if i.t == hitI.t && Shape.beq i.s hitI.s then
      let n1 :=
        match containers.getLast? with
        | Option.some sh => sh.material.refractive_index
        | Option.none => 1
      let n2 :=
        match updated.getLast? with
        | Option.some sh => sh.material.refractive_index
        | Option.none => 1
      (n1, n2)
    else refractiveScan hitI rest updated

/-- Model of `Intersection::prepare_computations` in the newer two-argument form used
by `world.rs`.  The fields present in `src/intersection.rs` follow that file;
`under_point`, `reflect_vector` and the `n1`/`n2` walk are modelled from the
spec (section 3, "Computations"). -/
def Intersection.prepare_computations (F : FloatFns) (hitI : Intersection) (ray : Ray)
    (xs : Intersections) : Computations :=
  let point := ray.position hitI.t
  let eye_vector := -ray.direction
  let normal_vector0 := Shape.normal_at F hitI.s point
  let inside := normal_vector0.dot eye_vector < 0
  let normal_vector := if inside then -normal_vector0 else normal_vector0
  let over_point := point + normal_vector * EPSILON
  let under_point := point - normal_vector * EPSILON
  let reflect_vector := ray.direction.reflect normal_vector
  let ns := refractiveScan hitI xs.list []
  { object := hitI.s, point := point, eye_vector := eye_vector,
    normal_vector := normal_vector, inside := decide inside,
    over_point := over_point, under_point := under_point,
    reflect_vector := reflect_vector, n1 := ns.1, n2 := ns.2 }

/-- Modelled from the spec: `Computations::schlick` (glossary: "a
closed-form estimate of Fresnel reflectance"; section 4.5 step 6:
"special-casing when n1>n2 to check total internal reflection first"). -/
def Computations.schlick (F : FloatFns) (comps : Computations) : ℚ :=
  let cos := comps.eye_vector.dot comps.normal_vector
  let r0 := ((comps.n1 - comps.n2) / (comps.n1 + comps.n2)) ^ 2
  if comps.n2 < comps.n1 then
    let n := comps.n1 / comps.n2
    let sin2_t := n ^ 2 * (1 - cos ^ 2)
    if 1 < sin2_t then 1
    else
      let cos_t := F.sqrt (1 - sin2_t)
      r0 + (1 - r0) * (1 - cos_t) ^ 5
  else r0 + (1 - r0) * (1 - cos) ^ 5

/-! ### World (`src/world.rs`) -/

/-- Model of `World`: shape collection plus one point light. -/
structure World where
  objects : List Shape
  light : PointLight

/-- Model of `World::empty()`. -/
def World.empty : World :=
  ⟨[], ⟨Point.ORIGIN, Color.BLACK⟩⟩

/-- Model of `World::intersections`: every object's hits, sorted ascending by `t`. -/
def World.intersections (F : FloatFns) (w : World) (ray : Ray) : Intersections :=
  let all := (w.objects.map (fun obj => (Shape.intersect F obj ray).list)).flatten
  Intersections.from_sorted (List.insertionSort interLE all)

/-- Model of `World::is_shadowed`: fire a ray from the point toward the light; the
point is shadowed iff the hit's parameter is below the distance to the
light. -/
def World.is_shadowed (F : FloatFns) (w : World) (point : Point) : Bool :=
  let vector_to_light := w.light.position - point
  let distance_to_light := vector_to_light.magnitude F
  let direction_to_light := vector_to_light.normalize F
  let shadow_ray := Ray.mk point direction_to_light
  let xs := World.intersections F w shadow_ray
  match Intersections.hit xs with
  | Option.some h => decide (h.t < distance_to_light)
  | Option.none => false

/-! The recursive light transport of `world.rs`: `color_at` / `shade_hit` /
`reflected_color` / `refracted_color`.  The `remaining` budget is the
source's `i32`; recursion is on `remaining.toNat` with a tag ordering the
functions within one budget level. -/

mutual

/-- Model of `World::color_at`. -/
def World.color_at (F : FloatFns) (w : World) (ray : Ray) (remaining : Int) : Color :=
  let xs := World.intersections F w ray
  match Intersections.hit xs with
  | Option.some h =>
      World.shade_hit F w (Intersection.prepare_computations F h ray xs) remaining
  | Option.none => Color.BLACK
termination_by (remaining.toNat, 2)

/-- Model of `World::shade_hit`. -/
def World.shade_hit (F : FloatFns) (w : World) (comps : Computations) (remaining : Int) :
    Color :=
  let surface_color := Material.shade F comps.object.material comps.object comps.point
    w.light comps.eye_vector comps.normal_vector (World.is_shadowed F w comps.over_point)
  let reflected := World.reflected_color F w comps remaining
  let refracted := World.refracted_color F w comps remaining
  if 0 < comps.object.material.reflective ∧ 0 < comps.object.material.transparency then
    let reflectance := Computations.schlick F comps
    surface_color + reflected * reflectance + refracted * (1 - reflectance)
  else surface_color + reflected + refracted
termination_by (remaining.toNat, 1)

/-- Model of `World::reflected_color`. -/
def World.reflected_color (F : FloatFns) (w : World) (comps : Computations)
    (remaining : Int) : Color :=
  if remaining ≤ 0 then Color.BLACK
  else if comps.object.material.reflective ≤ 0 then Color.BLACK
  else
    let reflect_ray := Ray.mk comps.over_point comps.reflect_vector
    let color := World.color_at F w reflect_ray (remaining - 1)
    color * comps.object.material.reflective
termination_by (remaining.toNat, 0)

/-- Model of `World::refracted_color`. -/
def World.refracted_color (F : FloatFns) (w : World) (comps : Computations)
    (remaining : Int) : Color :=
  if comps.object.material.transparency = 0 ∨ remaining ≤ 0 then Color.BLACK
  else
    let n12 := comps.n1 / comps.n2
    let cos_i := comps.eye_vector.dot comps.normal_vector
    let sin2_t := n12 * n12 * (1 - cos_i * cos_i)
    if 1 < sin2_t then Color.BLACK
    else
      let cos_t := F.sqrt (1 - sin2_t)
      let direction := comps.normal_vector * (n12 * cos_i - cos_t) -
        comps.eye_vector * n12
      let refract_ray := Ray.mk comps.under_point direction
      World.color_at F w refract_ray (remaining - 1) *
        comps.object.material.transparency
termination_by (remaining.toNat, 0)

end

/-! ## Helper lemmas -/

/-- On a list sorted ascending by `t`, `find?` for `0 < t` returns a member
that is positive and minimal among the positive entries. -/
theorem find_pos_spec {xs : List Intersection} (hs : List.Sorted interLE xs)
    {i : Intersection} (h : xs.find? (fun x => decide (0 < x.t)) = Option.some i) :
    i ∈ xs ∧ 0 < i.t ∧ ∀ k ∈ xs, 0 < k.t → i.t ≤ k.t := by
  induction xs with
  | nil => simp at h
  | cons hd tl ih =>
    rw [List.sorted_cons] at hs
    by_cases hpos : 0 < hd.t
    · rw [List.find?_cons_of_pos _ (by simpa using hpos)] at h
      obtain rfl : hd = i := by simpa using h
      refine ⟨List.mem_cons_self _ _, hpos, ?_⟩
      intro k hk _
      rcases List.mem_cons.mp hk with rfl | hk
      · exact le_refl _
      · exact hs.1 k hk
    · rw [List.find?_cons_of_neg _ (by simpa using hpos)] at h
      obtain ⟨hmem, hq, hmin⟩ := ih hs.2 h
      refine ⟨List.mem_cons_of_mem _ hmem, hq, ?_⟩
      intro k hk hkpos
      rcases List.mem_cons.mp hk with rfl | hk
      · exact absurd hkpos hpos
      · exact hmin k hk hkpos

/-- Helper: `find?` for `0 < t` returns `none` exactly when no entry is positive. -/
theorem find_pos_none {xs : List Intersection} :
    xs.find? (fun x => decide (0 < x.t)) = Option.none ↔ ∀ k ∈ xs, ¬ 0 < k.t := by
  rw [List.find?_eq_none]
  simp

/-- The list underlying `World::intersections` is sorted ascending by `t`. -/
theorem world_intersections_sorted (F : FloatFns) (w : World) (ray : Ray) :
    List.Sorted interLE (World.intersections F w ray).list := by
  unfold World.intersections Intersections.from_sorted
  exact List.sorted_insertionSort interLE _

/-! ## Claims -/

/-- C1: `Intersections::new` keeps the entries sorted ascending by `t`;
`hit()` returns the intersection with the smallest strictly positive `t`
when one exists, `none` when every entry has `t ≤ 0`, and never returns an
entry with `t ≤ 0`. -/
theorem intersections_new_sorted_and_hit (l : List Intersection) :
    List.Sorted interLE (Intersections.new l).list ∧
    (∀ i, (Intersections.new l).hit = Option.some i →
      i ∈ l ∧ 0 < i.t ∧ ∀ k ∈ l, 0 < k.t → i.t ≤ k.t) ∧
    (∀ j ∈ l, 0 < j.t → (Intersections.new l).hit ≠ Option.none) ∧
    ((∀ j ∈ l, j.t ≤ 0) → (Intersections.new l).hit = Option.none) := by
  have hperm : (Intersections.new l).list.Perm l := List.perm_insertionSort interLE l
  have hsorted : List.Sorted interLE (Intersections.new l).list :=
    List.sorted_insertionSort interLE l
  refine ⟨hsorted, ?_, ?_, ?_⟩
  · intro i h
    obtain ⟨hmem, hpos, hmin⟩ := find_pos_spec hsorted h
    exact ⟨hperm.mem_iff.mp hmem, hpos, fun k hk hkpos =>
      hmin k (hperm.mem_iff.mpr hk) hkpos⟩
  · intro j hj hjpos hnone
    exact (find_pos_none.mp hnone) j (hperm.mem_iff.mpr hj) hjpos
  · intro hall
    exact find_pos_none.mpr fun k hk => not_lt.mpr (hall k (hperm.mem_iff.mp hk))

/-- Witness for C1 at concrete inputs: with entries `t = 5, 7, -3, 2` the
hit is the minimal positive entry, and with all entries non-positive the
hit is `none`. -/
theorem intersections_new_sorted_and_hit_witness :
    ((Intersections.new [⟨5, Shape.sphere⟩, ⟨7, Shape.sphere⟩, ⟨-3, Shape.sphere⟩,
        ⟨2, Shape.sphere⟩]).hit = Option.some ⟨2, Shape.sphere⟩ →
      (⟨2, Shape.sphere⟩ : Intersection) ∈
          ([⟨5, Shape.sphere⟩, ⟨7, Shape.sphere⟩, ⟨-3, Shape.sphere⟩,
            ⟨2, Shape.sphere⟩] : List Intersection) ∧
        (0:ℚ) < 2 ∧ ∀ k ∈ ([⟨5, Shape.sphere⟩, ⟨7, Shape.sphere⟩, ⟨-3, Shape.sphere⟩,
            ⟨2, Shape.sphere⟩] : List Intersection), 0 < k.t → (2:ℚ) ≤ k.t) ∧
    (Intersections.new [⟨-2, Shape.sphere⟩, ⟨-1, Shape.sphere⟩]).hit = Option.none :=
  ⟨(intersections_new_sorted_and_hit _).2.1 ⟨2, Shape.sphere⟩,
   (intersections_new_sorted_and_hit _).2.2.2 (by norm_num)⟩

/-- C8: `Plane::local_intersect` returns no intersection exactly when
`|direction.y| < 1e-5`, and otherwise exactly one hit at
`t = -origin.y / direction.y`. -/
theorem plane_local_intersect_characterization (r : Ray) :
    (Plane.local_intersect r = LocalHits.none ↔ |r.direction.y| < EPSILON) ∧
    (¬ |r.direction.y| < EPSILON →
      Plane.local_intersect r = LocalHits.one (-r.origin.y / r.direction.y)) := by
  constructor
  · unfold Plane.local_intersect
    split <;> simp_all
  · intro h
    unfold Plane.local_intersect
    simp [h]

/-- Witness for C8: the ray from `(0, 1, 0)` straight down hits the plane;
the coplanar ray along `z` misses. -/
theorem plane_local_intersect_characterization_witness :
    (Plane.local_intersect ⟨⟨0, 1, 0⟩, ⟨0, -1, 0⟩⟩ =
      LocalHits.one (-(⟨⟨0, 1, 0⟩, ⟨0, -1, 0⟩⟩ : Ray).origin.y /
        (⟨⟨0, 1, 0⟩, ⟨0, -1, 0⟩⟩ : Ray).direction.y)) ∧
    (Plane.local_intersect ⟨⟨0, 0, 0⟩, ⟨0, 0, 1⟩⟩ = LocalHits.none) :=
  ⟨(plane_local_intersect_characterization _).2 (by norm_num [EPSILON]),
   (plane_local_intersect_characterization ⟨⟨0, 0, 0⟩, ⟨0, 0, 1⟩⟩).1.mpr
     (by norm_num [EPSILON])⟩

/-- C9: `Matrix<4>::inverse` fails (the modelled panic, `none`) precisely
when the determinant is exactly `0`; with a nonzero determinant it returns
the cofactor-transpose divided by the determinant. -/
theorem matrix_inverse_characterization (m : Matrix4) :
    (Matrix4.inverse m = Option.none ↔ Matrix4.determinant m = 0) ∧
    (Matrix4.determinant m ≠ 0 →
      Matrix4.inverse m = Option.some
        (fun col row => Matrix4.cofactor m row col / Matrix4.determinant m)) := by
  constructor
  · unfold Matrix4.inverse
    split <;> simp_all
  · intro h
    unfold Matrix4.inverse
    simp [h]

/-- Witness for C9: the scaling-by-2 transform has determinant 8 and a
computed inverse; the all-zero matrix has determinant 0 and fails. -/
theorem matrix_inverse_characterization_witness :
    (Matrix4.inverse (Matrix4.scaling 2 2 2) =
      Option.some (fun col row => Matrix4.cofactor (Matrix4.scaling 2 2 2) row col /
        Matrix4.determinant (Matrix4.scaling 2 2 2))) ∧
    (Matrix4.inverse (fun _ _ => 0) = Option.none) :=
  ⟨(matrix_inverse_characterization _).2 (by
      norm_num [Matrix4.determinant, Matrix4.cofactor, Matrix4.minor, Matrix4.submatrix,
        Matrix3.determinant, Matrix3.cofactor, Matrix3.minor, Matrix3.submatrix,
        Matrix2.determinant, Matrix4.scaling]),
   (matrix_inverse_characterization (fun _ _ => 0)).1.mpr (by
      norm_num [Matrix4.determinant, Matrix4.cofactor, Matrix4.minor, Matrix4.submatrix,
        Matrix3.determinant, Matrix3.cofactor, Matrix3.minor, Matrix3.submatrix,
        Matrix2.determinant])⟩


/-! Evaluation helpers: the operator instances unfolded componentwise. -/

theorem vadd_eval (a b : Vector) : a + b = ⟨a.x + b.x, a.y + b.y, a.z + b.z⟩ := rfl

theorem vsub_eval (a b : Vector) : a - b = ⟨a.x - b.x, a.y - b.y, a.z - b.z⟩ := rfl

theorem vneg_eval (a : Vector) : -a = ⟨-a.x, -a.y, -a.z⟩ := rfl

theorem vsmul_eval (a : Vector) (k : ℚ) : a * k = ⟨a.x * k, a.y * k, a.z * k⟩ := rfl

theorem paddv_eval (p : Point) (v : Vector) :
    p + v = (⟨p.x + v.x, p.y + v.y, p.z + v.z⟩ : Point) := rfl

theorem psubp_eval (p q : Point) :
    p - q = (⟨p.x - q.x, p.y - q.y, p.z - q.z⟩ : Vector) := rfl

theorem psubv_eval (p : Point) (v : Vector) :
    p - v = (⟨p.x - v.x, p.y - v.y, p.z - v.z⟩ : Point) := rfl

theorem cadd_eval (a b : Color) : a + b = ⟨a.red + b.red, a.green + b.green, a.blue + b.blue⟩ :=
  rfl

theorem csub_eval (a b : Color) : a - b = ⟨a.red - b.red, a.green - b.green, a.blue - b.blue⟩ :=
  rfl

theorem cmul_eval (a b : Color) : a * b = ⟨a.red * b.red, a.green * b.green, a.blue * b.blue⟩ :=
  rfl

theorem cscale_eval (a : Color) (k : ℚ) : a * k = ⟨a.red * k, a.green * k, a.blue * k⟩ := rfl

/-- A square-root model that is exact at the discriminants the reference
scenarios of the source tests produce (`0`, `1`, `4`). -/
def sqrtTable : FloatFns :=
  { trivFns with sqrt := fun q => if q = 4 then 2 else if q = 1 then 1 else 0 }

/-! The quadratic coefficients of `Sphere::local_intersect`, named so the
theorems below can speak about them: `a = D·D`, `b = 2·D·O`, `c = O·O - 1`
for a ray with direction `D` and origin offset `O`. -/

def sphere_a (ray : Ray) : ℚ := ray.direction.dot ray.direction

def sphere_b (ray : Ray) : ℚ := 2 * ray.direction.dot (ray.origin - Point.ORIGIN)

def sphere_c (ray : Ray) : ℚ :=
  (ray.origin - Point.ORIGIN).dot (ray.origin - Point.ORIGIN) - 1

def sphere_disc (ray : Ray) : ℚ :=
  sphere_b ray * sphere_b ray - 4 * sphere_a ray * sphere_c ray

/-- Both `q / a` and `c / q` are roots of `a·t² + b·t + c` whenever
`q² + b·q + a·c = 0` and `a ≠ 0` (the `q = 0` case forces `c = 0`). -/
theorem quad_roots_of_q (a b c q : ℚ) (ha : a ≠ 0) (hq : q * q + b * q + a * c = 0) :
    a * (q / a * (q / a)) + b * (q / a) + c = 0 ∧
    a * (c / q * (c / q)) + b * (c / q) + c = 0 := by
  constructor
  · field_simp
    linear_combination a ^ 2 * hq
  · by_cases hq0 : q = 0
    · subst hq0
      have hac : a * c = 0 := by linarith [hq]
      have hc : c = 0 := by
        rcases mul_eq_zero.mp hac with h | h
        · exact absurd h ha
        · exact h
      simp [hc]
    · field_simp
      linear_combination c * q * hq

/-- C6: `Sphere::local_intersect` returns no intersection exactly when the
discriminant `b² - 4ac` is negative; otherwise it returns `(lo, hi)` with
`lo ≤ hi`, and — whenever the square-root model is exact at the
discriminant and the ray direction is nonzero (`a ≠ 0`) — the two values
are the two roots of the quadratic `a·t² + b·t + c`, regardless of which
branch (`b < 0` or `b ≥ 0`) the numerically stable solver takes. -/
theorem sphere_local_intersect_roots (F : FloatFns) (ray : Ray) :
    (Sphere.local_intersect F ray = Option.none ↔ sphere_disc ray < 0) ∧
    (∀ lo hi, Sphere.local_intersect F ray = Option.some (lo, hi) →
      F.sqrt (sphere_disc ray) * F.sqrt (sphere_disc ray) = sphere_disc ray →
      0 ≤ F.sqrt (sphere_disc ray) →
      sphere_a ray ≠ 0 →
      lo ≤ hi ∧
      sphere_a ray * (lo * lo) + sphere_b ray * lo + sphere_c ray = 0 ∧
      sphere_a ray * (hi * hi) + sphere_b ray * hi + sphere_c ray = 0) := by
  constructor
  · unfold sphere_disc sphere_a sphere_b sphere_c
    rw [Sphere.local_intersect]
    constructor
    · intro h
      by_contra hlt
      rw [if_neg hlt] at h
      rcases ite_eq_iff.mp h with ⟨-, h2⟩ | ⟨-, h2⟩
      · exact Option.noConfusion h2
      · exact Option.noConfusion h2
    · intro h
      rw [if_pos h]
  · intro lo hi hsome hs hnn ha
    simp only [sphere_disc, sphere_a, sphere_b, sphere_c] at hs hnn ha ⊢
    rw [Sphere.local_intersect] at hsome
    set A := ray.direction.dot ray.direction with hA
    set B := 2 * ray.direction.dot (ray.origin - Point.ORIGIN) with hB
    set C := (ray.origin - Point.ORIGIN).dot (ray.origin - Point.ORIGIN) - 1 with hC
    set s := F.sqrt (B * B - 4 * A * C) with hsdef
    by_cases hneg : B * B - 4 * A * C < 0
    · rw [if_pos hneg] at hsome
      exact Option.noConfusion hsome
    · rw [if_neg hneg] at hsome
      by_cases hb : B < 0
      · simp only [hb, if_true] at hsome
        have hq : (-B + s) / 2 * ((-B + s) / 2) + B * ((-B + s) / 2) + A * C = 0 := by
          linear_combination hs / 4
        obtain ⟨r1, r2⟩ := quad_roots_of_q A B C ((-B + s) / 2) ha hq
        rcases ite_eq_iff.mp hsome with ⟨hcmp, h2⟩ | ⟨hcmp, h2⟩ <;>
          rw [Option.some.injEq, Prod.mk.injEq] at h2
        · obtain ⟨rfl, rfl⟩ := h2
          exact ⟨hcmp, r1, r2⟩
        · obtain ⟨rfl, rfl⟩ := h2
          exact ⟨le_of_not_le hcmp, r2, r1⟩
      · simp only [hb, if_false] at hsome
        have hq : (-B - s) / 2 * ((-B - s) / 2) + B * ((-B - s) / 2) + A * C = 0 := by
          linear_combination hs / 4
        obtain ⟨r1, r2⟩ := quad_roots_of_q A B C ((-B - s) / 2) ha hq
        rcases ite_eq_iff.mp hsome with ⟨hcmp, h2⟩ | ⟨hcmp, h2⟩ <;>
          rw [Option.some.injEq, Prod.mk.injEq] at h2
        · obtain ⟨rfl, rfl⟩ := h2
          exact ⟨hcmp, r1, r2⟩
        · obtain ⟨rfl, rfl⟩ := h2
          exact ⟨le_of_not_le hcmp, r2, r1⟩

/-- Witness for C6: the reference ray `(0,0,-5) → (0,0,1)` (discriminant 4)
yields `(4, 6)`, which are the two roots, ascending. -/
theorem sphere_local_intersect_roots_witness :
    (4:ℚ) ≤ 6 ∧
    sphere_a ⟨⟨0, 0, -5⟩, ⟨0, 0, 1⟩⟩ * (4 * 4) +
      sphere_b ⟨⟨0, 0, -5⟩, ⟨0, 0, 1⟩⟩ * 4 + sphere_c ⟨⟨0, 0, -5⟩, ⟨0, 0, 1⟩⟩ = 0 ∧
    sphere_a ⟨⟨0, 0, -5⟩, ⟨0, 0, 1⟩⟩ * (6 * 6) +
      sphere_b ⟨⟨0, 0, -5⟩, ⟨0, 0, 1⟩⟩ * 6 + sphere_c ⟨⟨0, 0, -5⟩, ⟨0, 0, 1⟩⟩ = 0 :=
  (sphere_local_intersect_roots sqrtTable ⟨⟨0, 0, -5⟩, ⟨0, 0, 1⟩⟩).2 4 6
    (by norm_num [Sphere.local_intersect, psubp_eval, Vector.dot, sqrtTable, trivFns,
      Point.ORIGIN])
    (by norm_num [sphere_disc, sphere_a, sphere_b, sphere_c, psubp_eval, Vector.dot,
      sqrtTable, trivFns, Point.ORIGIN])
    (by norm_num [sphere_disc, sphere_a, sphere_b, sphere_c, psubp_eval, Vector.dot,
      sqrtTable, trivFns, Point.ORIGIN])
    (by norm_num [sphere_a, Vector.dot])

/-- C10: when a shape has no UV map (as for every plane-backed shape, built
with `uv_map = None`), `checker_uv_at` never fails: it silently falls back
to sampling source `a` at the point, ignoring `width`, `height` and source
`b` entirely. -/
theorem checker_uv_without_uv_map (F : FloatFns) (tr itr : Matrix4) (pt : PatternType)
    (a b : Source) (p : Point) (obj : Shape) (width height : ℚ)
    (h : obj.uv_map = Option.none) :
    Pattern.checker_uv_at F (Pattern.mk tr itr pt a b) p obj width height =
      Pattern.sample_source F a p obj ∧
    Shape.plane.uv_map = Option.none := by
  constructor
  · rw [Pattern.checker_uv_at, h]
  · rfl

/-- Witness for C10 at a concrete checker-UV pattern over the plane shape. -/
theorem checker_uv_without_uv_map_witness :
    Pattern.checker_uv_at trivFns
        (Pattern.mk Matrix4.identity Matrix4.identity (PatternType.checkerUV 16 8)
          (Source.solid Color.WHITE) (Source.solid Color.BLACK))
        Point.ORIGIN Shape.plane 16 8 =
      Pattern.sample_source trivFns (Source.solid Color.WHITE) Point.ORIGIN Shape.plane ∧
    Shape.plane.uv_map = Option.none :=
  checker_uv_without_uv_map trivFns Matrix4.identity Matrix4.identity
    (PatternType.checkerUV 16 8) (Source.solid Color.WHITE) (Source.solid Color.BLACK)
    Point.ORIGIN Shape.plane 16 8 rfl

/-- C5: `Material::shade` always includes the ambient contribution
`effective_color * ambient`; when the point is in shadow or the light is on
the far side of the surface (`light·normal < 0`), diffuse and specular are
zero and the result is exactly the ambient term. -/
theorem shade_in_shadow_is_ambient (F : FloatFns) (m : Material) (object : Shape)
    (position : Point) (light : PointLight) (eye normal : Vector) (in_shadow : Bool)
    (h : in_shadow = true ∨
      (Vector.normalize F (light.position - position)).dot normal < 0) :
    Material.shade F m object position light eye normal in_shadow =
      (match m.pattern with
        | Option.some pat => Pattern.pattern_at_object F pat object position
        | Option.none => m.color * light.intensity) * m.ambient := by
  unfold Material.shade
  have hcond : ¬ (0 ≤ (Vector.normalize F (light.position - position)).dot normal ∧
      in_shadow = false) := by
    rcases h with h | h
    · rintro ⟨-, h2⟩
      rw [h] at h2
      cases h2
    · rintro ⟨h1, -⟩
      exact absurd h1 (not_le.mpr h)
  simp only [if_neg hcond]
  rw [Color.add_black, Color.add_black]
  try rfl

/-- Witness for C5: a default material shaded in shadow yields exactly the
ambient term. -/
theorem shade_in_shadow_is_ambient_witness :
    Material.shade trivFns Material.default Shape.sphere Point.ORIGIN
        ⟨⟨0, 0, -10⟩, Color.WHITE⟩ ⟨0, 0, -1⟩ ⟨0, 0, -1⟩ true =
      (match Material.default.pattern with
        | Option.some pat => Pattern.pattern_at_object trivFns pat Shape.sphere Point.ORIGIN
        | Option.none => Material.default.color * Color.WHITE) * Material.default.ambient :=
  shade_in_shadow_is_ambient trivFns Material.default Shape.sphere Point.ORIGIN
    ⟨⟨0, 0, -10⟩, Color.WHITE⟩ ⟨0, 0, -1⟩ ⟨0, 0, -1⟩ true (Or.inl rfl)

/-- The refraction step as the spec describes it (section 4.5, step 5):
black when transparency is 0 or the budget is exhausted; with
`n_ratio = n1/n2` and `cos_i = eye·normal`, black under total internal
reflection (`sin²θt > 1`); otherwise the recursive `color_at` from the
under-point along `normal·(n_ratio·cos_i − cos_t) − eye·n_ratio`, scaled by
the transparency. -/
def refracted_color_by_spec (F : FloatFns) (w : World) (comps : Computations)
    (remaining : Int) : Color :=
  if comps.object.material.transparency = 0 ∨ remaining ≤ 0 then Color.BLACK
  else
    let nr := comps.n1 / comps.n2
    let cos_i := comps.eye_vector.dot comps.normal_vector
    let sin2_t := nr * nr * (1 - cos_i * cos_i)
    if 1 < sin2_t then Color.BLACK
    else
      let cos_t := F.sqrt (1 - sin2_t)
      World.color_at F w
        (Ray.mk comps.under_point
          (comps.normal_vector * (nr * cos_i - cos_t) - comps.eye_vector * nr))
        (remaining - 1) * comps.object.material.transparency

/-- C4: `World::refracted_color` computes exactly the spec's refraction
formula, for every prepared hit and depth budget. -/
theorem refracted_color_matches_spec (F : FloatFns) (w : World) (comps : Computations)
    (remaining : Int) :
    World.refracted_color F w comps remaining =
      refracted_color_by_spec F w comps remaining := by
  rw [World.refracted_color, refracted_color_by_spec]

/-- A concrete `Computations` value for instantiating theorems. -/
def comps0 : Computations :=
  { object := Shape.sphere, point := Point.ORIGIN, eye_vector := ⟨0, 0, -1⟩,
    normal_vector := ⟨0, 0, -1⟩, inside := false, over_point := Point.ORIGIN,
    under_point := Point.ORIGIN, reflect_vector := ⟨0, 0, 1⟩, n1 := 1, n2 := 1 }

/-- A fully reflective default material. -/
def mirrorMaterial : Material :=
  { Material.default with reflective := 1 }

/-- A concrete `Computations` value whose object is fully reflective. -/
def mirrorComps : Computations :=
  { comps0 with object := Shape.with_material Shape.plane mirrorMaterial }

/-- C2: the light-transport recursion is bounded by the depth budget:
`reflected_color` and `refracted_color` return black immediately when the
budget is `≤ 0` (and when `reflective ≤ 0`, respectively
`transparency = 0`), and each recursive call to `color_at` passes
`remaining - 1` — the totality of `World.color_at` (a function defined by
recursion on the budget) is the termination of the mutual recursion for
every world, including two facing fully reflective planes. -/
theorem color_at_depth_budget (F : FloatFns) (w : World) (comps : Computations)
    (remaining : Int) :
    (remaining ≤ 0 → World.reflected_color F w comps remaining = Color.BLACK) ∧
    (comps.object.material.reflective ≤ 0 →
      World.reflected_color F w comps remaining = Color.BLACK) ∧
    (remaining ≤ 0 → World.refracted_color F w comps remaining = Color.BLACK) ∧
    (comps.object.material.transparency = 0 →
      World.refracted_color F w comps remaining = Color.BLACK) ∧
    (¬ remaining ≤ 0 → ¬ comps.object.material.reflective ≤ 0 →
      World.reflected_color F w comps remaining =
        World.color_at F w (Ray.mk comps.over_point comps.reflect_vector)
          (remaining - 1) * comps.object.material.reflective) ∧
    (¬ comps.object.material.transparency = 0 → ¬ remaining ≤ 0 →
      ¬ 1 < comps.n1 / comps.n2 * (comps.n1 / comps.n2) *
          (1 - comps.eye_vector.dot comps.normal_vector *
            comps.eye_vector.dot comps.normal_vector) →
      World.refracted_color F w comps remaining =
        World.color_at F w
          (Ray.mk comps.under_point
            (comps.normal_vector * (comps.n1 / comps.n2 *
                comps.eye_vector.dot comps.normal_vector -
                F.sqrt (1 - comps.n1 / comps.n2 * (comps.n1 / comps.n2) *
                  (1 - comps.eye_vector.dot comps.normal_vector *
                    comps.eye_vector.dot comps.normal_vector))) -
              comps.eye_vector * (comps.n1 / comps.n2)))
          (remaining - 1) * comps.object.material.transparency) := by
  refine ⟨?_, ?_, ?_, ?_, ?_, ?_⟩
  · intro h
    rw [World.reflected_color]
    simp [h]
  · intro h
    rw [World.reflected_color]
    split_ifs <;> simp_all
  · intro h
    rw [World.refracted_color]
    simp [h]
  · intro h
    rw [World.refracted_color]
    simp [h]
  · intro h1 h2
    rw [World.reflected_color]
    simp [h1, h2]
  · intro h1 h2 h3
    rw [World.refracted_color]
    simp [h1, h2, h3]

/-- Witness for C2: at budget `0` both recursive contributions are black;
at budget `1` on a fully reflective object the reflected color is the
recursive `color_at` at budget `1 - 1`, scaled by the reflectivity. -/
theorem color_at_depth_budget_witness :
    World.reflected_color trivFns World.empty comps0 0 = Color.BLACK ∧
    World.refracted_color trivFns World.empty comps0 0 = Color.BLACK ∧
    World.reflected_color trivFns World.empty mirrorComps 1 =
      World.color_at trivFns World.empty
        (Ray.mk mirrorComps.over_point mirrorComps.reflect_vector) (1 - 1) *
        mirrorComps.object.material.reflective :=
  ⟨(color_at_depth_budget trivFns World.empty comps0 0).1 (le_refl 0),
   (color_at_depth_budget trivFns World.empty comps0 0).2.2.1 (le_refl 0),
   (color_at_depth_budget trivFns World.empty mirrorComps 1).2.2.2.2.1 (by norm_num)
     (by norm_num [mirrorComps, comps0, mirrorMaterial, Shape.with_material, Shape.plane,
       Material.default])⟩



/-- C3: `World::is_shadowed(p)` is true exactly when some intersection of
the ray fired from `p` toward the light (direction normalized) is a
selectable hit — parameter strictly positive — strictly closer than the
light; an intersection at or beyond the light's distance, or behind `p`,
never shadows `p`. -/
theorem is_shadowed_iff_closer_hit (F : FloatFns) (w : World) (p : Point) :
    World.is_shadowed F w p = true ↔
      ∃ i ∈ (World.intersections F w
          (Ray.mk p (Vector.normalize F (w.light.position - p)))).list,
        0 < i.t ∧ i.t < Vector.magnitude F (w.light.position - p) := by
  have hsorted := world_intersections_sorted F w
    (Ray.mk p (Vector.normalize F (w.light.position - p)))
  unfold World.is_shadowed
  cases hhit : Intersections.hit (World.intersections F w
      (Ray.mk p (Vector.normalize F (w.light.position - p)))) with
  | none =>
    simp only [hhit]
    constructor
    · intro h
      cases h
    · rintro ⟨i, hmem, hpos, -⟩
      exact absurd hpos ((find_pos_none.mp hhit) i hmem)
  | some h1 =>
    simp only [hhit]
    obtain ⟨hmem, hpos, hmin⟩ := find_pos_spec hsorted hhit
    constructor
    · intro hlt
      exact ⟨h1, hmem, hpos, of_decide_eq_true hlt⟩
    · rintro ⟨i, himem, hipos, hilt⟩
      exact decide_eq_true (lt_of_le_of_lt (hmin i himem hipos) hilt)

/-- C7: `Shape::intersect` reference values, under a square-root model
exact at the discriminants these rays produce: the untransformed unit
sphere hit by `(0,0,-5) → (0,0,1)` at `t = 4, 6`; the tangent ray from
`(0,1,-5)` with a double hit at `t = 5`; the ray from `(0,2,-5)` with no
hit; and the sphere scaled by `(2,2,2)` hit at `t = 3, 7` (the world ray is
transformed into object space by the cached inverse transform). -/
theorem shape_intersect_reference_values (F : FloatFns)
    (h0 : F.sqrt 0 = 0) (h1 : F.sqrt 1 = 1) (h4 : F.sqrt 4 = 2) :
    ((Shape.intersect F Shape.sphere ⟨⟨0, 0, -5⟩, ⟨0, 0, 1⟩⟩).list.map Intersection.t
      = [4, 6]) ∧
    ((Shape.intersect F Shape.sphere ⟨⟨0, 1, -5⟩, ⟨0, 0, 1⟩⟩).list.map Intersection.t
      = [5, 5]) ∧
    ((Shape.intersect F Shape.sphere ⟨⟨0, 2, -5⟩, ⟨0, 0, 1⟩⟩).list.map Intersection.t
      = []) ∧
    ((Shape.intersect F (Shape.with_transform Shape.sphere (Matrix4.scaling 2 2 2))
      ⟨⟨0, 0, -5⟩, ⟨0, 0, 1⟩⟩).list.map Intersection.t = [3, 7]) := by
  refine ⟨?_, ?_, ?_, ?_⟩
  · norm_num [Shape.intersect, Shape.sphere, Ray.transform, Matrix4.identity,
      Matrix4.mulPoint, Matrix4.mulVec, Sphere.local_intersect, psubp_eval, Vector.dot,
      Point.ORIGIN, sphereHits, Intersections.from_sorted, Intersections.empty,
      h0, h1, h4]
  · norm_num [Shape.intersect, Shape.sphere, Ray.transform, Matrix4.identity,
      Matrix4.mulPoint, Matrix4.mulVec, Sphere.local_intersect, psubp_eval, Vector.dot,
      Point.ORIGIN, sphereHits, Intersections.from_sorted, Intersections.empty,
      h0, h1, h4]
  · norm_num [Shape.intersect, Shape.sphere, Ray.transform, Matrix4.identity,
      Matrix4.mulPoint, Matrix4.mulVec, Sphere.local_intersect, psubp_eval, Vector.dot,
      Point.ORIGIN, sphereHits, Intersections.from_sorted, Intersections.empty]
  · norm_num [Shape.intersect, Shape.sphere, Shape.with_transform, Matrix4.inv,
      Matrix4.inverse, Matrix4.scaling, Matrix4.determinant, Matrix4.cofactor,
      Matrix4.minor, Matrix4.submatrix, Matrix3.determinant, Matrix3.cofactor,
      Matrix3.minor, Matrix3.submatrix, Matrix2.determinant, Ray.transform,
      Matrix4.identity, Matrix4.mulPoint, Matrix4.mulVec, Sphere.local_intersect,
      psubp_eval, Vector.dot, Point.ORIGIN, sphereHits, Intersections.from_sorted,
      Intersections.empty, h0, h1, h4]

/-- Witness for C7: the reference values hold under the concrete
square-root table. -/
theorem shape_intersect_reference_values_witness :
    ((Shape.intersect sqrtTable Shape.sphere
      ⟨⟨0, 0, -5⟩, ⟨0, 0, 1⟩⟩).list.map Intersection.t = [4, 6]) ∧
    ((Shape.intersect sqrtTable Shape.sphere
      ⟨⟨0, 1, -5⟩, ⟨0, 0, 1⟩⟩).list.map Intersection.t = [5, 5]) ∧
    ((Shape.intersect sqrtTable Shape.sphere
      ⟨⟨0, 2, -5⟩, ⟨0, 0, 1⟩⟩).list.map Intersection.t = []) ∧
    ((Shape.intersect sqrtTable
      (Shape.with_transform Shape.sphere (Matrix4.scaling 2 2 2))
      ⟨⟨0, 0, -5⟩, ⟨0, 0, 1⟩⟩).list.map Intersection.t = [3, 7]) :=
  shape_intersect_reference_values sqrtTable
    (by norm_num [sqrtTable, trivFns]) (by norm_num [sqrtTable, trivFns])
    (by norm_num [sqrtTable, trivFns])


end RT
